import Mathlib

/-!
Shallow embedding of the streaming graph-exploration engine of `bluesky.py`:
cursor-based pagination generators (`iter_follows`, `iter_followers`,
`iter_search_actors`), the text matcher (`matches_any_keyword`,
`combine_bio_desc`, `read_keywords`), the per-run statistics aggregator
(`Stats`), the dedup/visited registry pattern, and the `mode_degreesearch`
breadth-first crawl loop.  Network calls, stdin reads and follow-record
mutations are modelled as oracle functions consumed by call index; Python
exceptions are modelled with `Except`.
-/

namespace Bluesky

/-- Python truthiness of an optional string value: `None` and `""` are falsy. -/
def pyTruthy : Option String → Bool
  | none => false
  | some s => s ≠ ""

/-- Python `x or d` where `x` is an optional string and `d` a string default. -/
def pyOrD (x : Option String) (d : String) : String :=
  match x with
  | none => d
  | some s => if s = "" then d else s

/-- Python `a or b` where both operands are optional strings. -/
def pyOrO (a b : Option String) : Option String :=
  if pyTruthy a then a else b

/-- Python `str.strip()`: drop leading and trailing whitespace. -/
def pyStrip (s : String) : String :=
  String.mk (((s.toList.dropWhile Char.isWhitespace).reverse.dropWhile
    Char.isWhitespace).reverse)

/-- Python `str.lower()` at the character-list level (the bios and keywords
handled here are ASCII, where `Char.toLower` agrees with Python). -/
def pyLower (s : String) : String :=
  String.mk (s.toList.map Char.toLower)

/-- Splitting a character list on whitespace runs, dropping empty pieces:
the word scan behind Python `str.split()` with no arguments. -/
def wordsChars : List Char → List Char → List (List Char)
  | [], acc => if acc.isEmpty then [] else [acc.reverse]
  | c :: rest, acc =>
    if c.isWhitespace then
      if acc.isEmpty then wordsChars rest [] else acc.reverse :: wordsChars rest []
    else wordsChars rest (c :: acc)

/-- Python `str.split()` with no arguments: split on whitespace runs, dropping
empty pieces. -/
def pySplitWs (s : String) : List String :=
  (wordsChars s.toList []).map String.mk

/-- Python `" ".join(parts)`: interleave a single space between the parts. -/
def pyJoinSpace (parts : List String) : String :=
  String.mk (go (parts.map String.toList))
where
  go : List (List Char) → List Char
    | [] => []
    | [w] => w
    | w :: ws => w ++ ' ' :: go ws

/-- Python `needle in hay` for strings: contiguous substring containment. -/
def pyInStr (needle hay : String) : Bool :=
  decide (needle.toList <:+: hay.toList)

/-- Nested profile object, the shape read by `obj.get("profile")`. -/
structure Prof where
  description : Option String
deriving DecidableEq, Repr

/-- An account record as consumed by the crawl: the dictionary fields that
`bluesky.py` reads from API items.  `none` covers both an absent key and a
JSON null; `viewer_following` is `(obj.get("viewer") or {}).get("following")`. -/
structure Rec where
  did : Option String
  handle : Option String
  displayName : Option String
  description : Option String
  bio : Option String
  profile : Option Prof
  viewer_following : Option String
deriving DecidableEq, Repr

/-- Embedding of `combine_bio_desc` (bluesky.py lines 345-348). -/
def combine_bio_desc (obj : Rec) : String :=
  let desc := pyStrip (pyOrD obj.description "")
  let bio := pyStrip (pyOrD obj.bio
    (pyOrD (match obj.profile with | none => none | some p => p.description) ""))
  pyStrip (pyJoinSpace (([bio, desc]).filter (fun s => s ≠ "")))

/-- Embedding of `matches_any_keyword` (bluesky.py lines 350-359). -/
def matches_any_keyword (text : String) (keywords : List String) : Bool :=
  if text = "" || keywords.isEmpty then false
  else
    let t := pyJoinSpace (pySplitWs (pyLower text))
    keywords.any (fun kw => pyInStr kw t)

/-- Embedding of `read_keywords` (bluesky.py lines 63-71), over the list of
lines of the keywords file. -/
def read_keywords (lines : List String) : List String :=
  (lines.map (fun line => pyJoinSpace
    (pySplitWs (pyLower (pyStrip line))))).filter (fun kw => kw ≠ "")

/-- One page of a listing response: `items` is the already-coerced batch as in
`out.get("follows", []) or []`, and `cursor` is `out.get("cursor")`. -/
structure PageResp where
  items : List Rec
  cursor : Option String

/-- Python falsiness of an optional cursor value (`None` or `""`). -/
def cursorFalsy (c : Option String) : Bool :=
  match c with
  | none => true
  | some s => s = ""

/-- Loop body of `iter_follows` (bluesky.py lines 92-107).  The server oracle
is consulted with the call index `pages` and the request cursor.  The source
loop `while pages < max_pages` with `pages += 1` after each yielded batch is
embedded structurally on `remaining = max_pages - pages`: the loop guard
holds exactly while `remaining` is positive. -/
def iter_follows_go (server : Nat → Option String → PageResp)
    (cursor : Option String) (pages : Nat) : Nat → List (List Rec)
  | 0 => []
  | remaining + 1 =>
    let out := server pages cursor
    if out.items.isEmpty then []
    else
      out.items ::
        (let cursor_new := out.cursor
         if cursorFalsy cursor_new || cursor_new == cursor then []
         else iter_follows_go server cursor_new (pages + 1) remaining)

/-- Embedding of `iter_follows` (bluesky.py lines 86-107): the sequence of
batches the generator yields. -/
def iter_follows (server : Nat → Option String → PageResp)
    (max_pages : Nat) : List (List Rec) :=
  iter_follows_go server none 0 max_pages

/-- Loop body of `iter_followers` (bluesky.py lines 115-130); structurally
identical to `iter_follows_go`, kept separate as in the source. -/
def iter_followers_go (server : Nat → Option String → PageResp)
    (cursor : Option String) (pages : Nat) : Nat → List (List Rec)
  | 0 => []
  | remaining + 1 =>
    let out := server pages cursor
    if out.items.isEmpty then []
    else
      out.items ::
        (let cursor_new := out.cursor
         if cursorFalsy cursor_new || cursor_new == cursor then []
         else iter_followers_go server cursor_new (pages + 1) remaining)

/-- Embedding of `iter_followers` (bluesky.py lines 109-130). -/
def iter_followers (server : Nat → Option String → PageResp)
    (max_pages : Nat) : List (List Rec) :=
  iter_followers_go server none 0 max_pages

/-- Loop body of `iter_search_actors` (bluesky.py lines 138-152).  Unlike the
other two iterators it only breaks on a falsy next cursor: there is no
comparison of the new cursor with the request cursor. -/
def iter_search_actors_go (server : Nat → Option String → PageResp)
    (cursor : Option String) (pages : Nat) : Nat → List (List Rec)
  | 0 => []
  | remaining + 1 =>
    let out := server pages cursor
    if out.items.isEmpty then []
    else
      out.items ::
        (let c := out.cursor
         if cursorFalsy c then []
         else iter_search_actors_go server c (pages + 1) remaining)

/-- Embedding of `iter_search_actors` (bluesky.py lines 132-152). -/
def iter_search_actors (server : Nat → Option String → PageResp)
    (max_pages : Nat) : List (List Rec) :=
  iter_search_actors_go server none 0 max_pages

/-- The `Stats` aggregator of `mode_degreesearch` (bluesky.py lines 609-657).
Counters are total maps from counter name to count (a Python `Counter` with
default 0); `reports` records each snapshot written to stderr by
`report_block` (the block map and the cumulative map at emission time), most
recent first. -/
structure Stats where
  n : Nat
  cum : String → Nat
  block : String → Nat
  reports : List ((String → Nat) × (String → Nat))

/-- Fresh `Stats(n)` (lines 610-613); `mode_degreesearch` uses
`STATS_BATCH_N = 100`. -/
def Stats.init (n : Nat) : Stats :=
  { n := n, cum := fun _ => 0, block := fun _ => 0, reports := [] }

/-- Embedding of `Stats._b` (lines 615-617): increment both the block and the
cumulative counter for `k` by one (every call site uses the default inc=1). -/
def Stats._b (s : Stats) (k : String) : Stats :=
  { s with
    block := fun j => if j = k then s.block j + 1 else s.block j,
    cum := fun j => if j = k then s.cum j + 1 else s.cum j }

/-- Embedding of `Stats.report_block` (lines 652-657): emit one snapshot of
the block and cumulative counters to the diagnostic channel. -/
def Stats.report_block (s : Stats) : Stats :=
  { s with reports := (s.block, s.cum) :: s.reports }

/-- Embedding of `Stats.account_seen` (lines 619-623): count the node
observation, and when the block counter reaches the threshold emit a snapshot
and reset the block counters only. -/
def Stats.account_seen (s : Stats) : Stats :=
  let s := s._b "followers_iterated"
  if s.n ≤ s.block "followers_iterated" then
    let s := s.report_block
    { s with block := fun _ => 0 }
  else s

/-- Stats.seed_seen (line 625). -/
def Stats.seed_seen (s : Stats) : Stats := s._b "seeds_seen"

/-- Stats.seed_matched (line 626). -/
def Stats.seed_matched (s : Stats) : Stats := s._b "seeds_matched"

/-- Stats.no_key_skip (line 628). -/
def Stats.no_key_skip (s : Stats) : Stats := s._b "no_key_skip"

/-- Stats.self_skip (line 629). -/
def Stats.self_skip (s : Stats) : Stats := s._b "self_skip"

/-- Stats.already_following_skip (line 630). -/
def Stats.already_following_skip (s : Stats) : Stats := s._b "already_following_skip"

/-- Stats.dedup_skip (line 631). -/
def Stats.dedup_skip (s : Stats) : Stats := s._b "dedup_skip"

/-- Stats.keyword_miss (line 632). -/
def Stats.keyword_miss (s : Stats) : Stats := s._b "keyword_miss"

/-- Stats.candidate (line 634). -/
def Stats.candidate (s : Stats) : Stats := (s._b "candidates_considered")._b "prompted"

/-- Stats.followed (line 635). -/
def Stats.followed (s : Stats) : Stats := s._b "followed_added"

/-- Stats.declined (line 636). -/
def Stats.declined (s : Stats) : Stats := s._b "user_declined"

/-- Stats.no_did_skip (line 637). -/
def Stats.no_did_skip (s : Stats) : Stats := s._b "no_did_skip"

/-- Stats.api_error (line 638). -/
def Stats.api_error (s : Stats) : Stats := s._b "api_error"

/-- Stats.enqueued (line 639). -/
def Stats.enqueued (s : Stats) : Stats := s._b "enqueued_new_seeds"

/-- The admission operation of the dedup/visited registry: the membership
check plus add pattern applied to `visited_seeds` (lines 716-718) and to
`seen_candidates` (lines 744 and 755). -/
def register_key (key : String) (s : List String) : Bool × List String :=
  if key ∈ s then (false, s) else (true, key :: s)

/-- Apply a sequence of admissions to a registry set, keeping only the set. -/
def applyRegisters (keys : List String) (s : List String) : List String :=
  keys.foldl (fun acc k => (register_key k acc).2) s

/-- Static context of one `mode_degreesearch` run: the crawl parameters plus
the oracles standing for the external collaborators.  `choices i` is the raw
line read from stdin at the i-th prompt; `follow_result i` the outcome of the
i-th `create_follow_record` call; `fetch i` the pages yielded by the i-th
`iter_followers(..., max_pages=1)` generator run, or the exception it
raises. -/
structure Ctx where
  keywords : List String
  did : String
  dry_run : Bool
  max_depth : Nat
  batch_size : Nat
  choices : Nat → String
  follow_result : Nat → Except String Unit
  fetch : Nat → Except String (List (List Rec))

/-- Embedding of `key_of` (lines 675-676): `obj.get("did") or
obj.get("handle")`. -/
def key_of (obj : Rec) : Option String :=
  pyOrO obj.did obj.handle

/-- The string carried by a truthy key, defaulting to `""`. -/
def keyStr (obj : Rec) : String := (key_of obj).getD ""

/-- Embedding of `seed_matches` (lines 661-662). -/
def seed_matches (ctx : Ctx) (obj : Rec) : Bool :=
  matches_any_keyword (combine_bio_desc obj) ctx.keywords

/-- Mutable locals of the `mode_degreesearch` loop (lines 664-673), plus the
oracle call counters and `deep_skips`, which counts executions of the
max-depth skip branch printed at line 732. -/
structure CrawlState where
  seed_source : List (List Rec)
  seed_buffer : List Rec
  queue : List (Rec × Nat)
  visited_seeds : List String
  seen_candidates : List String
  session_followed : List String
  added : Nat
  skipped : Nat
  stats : Stats
  prompt_idx : Nat
  follow_idx : Nat
  fetch_idx : Nat
  deep_skips : Nat
  current_seed_batch_idx : Nat

/-- Processing of one follower record `f` of a seed popped at depth `depth`:
the body of the `for f in followers` loop (lines 739-789).  The try/except
around `create_follow_record` is the `Except.error` branch of the follow
oracle: the function stays total there, recording `api_error`. -/
def process_candidate (ctx : Ctx) (depth : Nat) (st : CrawlState) (f : Rec) :
    CrawlState :=
  let st := { st with stats := st.stats.account_seen }
  if ¬ pyTruthy (key_of f) then { st with stats := st.stats.no_key_skip }
  else if keyStr f ∈ st.seen_candidates then { st with stats := st.stats.dedup_skip }
  else if keyStr f = ctx.did then { st with stats := st.stats.self_skip }
  else if pyTruthy f.viewer_following || keyStr f ∈ st.session_followed then
    { st with stats := st.stats.already_following_skip }
  else
    let f_text := combine_bio_desc f
    if ¬ matches_any_keyword f_text ctx.keywords then
      { st with stats := st.stats.keyword_miss }
    else
      let st := { st with seen_candidates := keyStr f :: st.seen_candidates }
      let st := { st with stats := st.stats.candidate }
      let choice := pyLower (pyStrip (ctx.choices st.prompt_idx))
      let st := { st with prompt_idx := st.prompt_idx + 1 }
      if choice = "" || choice = "y" || choice = "yes" then
        if ¬ pyTruthy f.did then
          { st with stats := st.stats.no_did_skip, skipped := st.skipped + 1 }
        else
          let subject_did := (f.did).getD ""
          let st := { st with session_followed := subject_did :: st.session_followed }
          if ctx.dry_run then
            let st := { st with stats := st.stats.followed, added := st.added + 1 }
            if depth + 1 ≤ ctx.max_depth - 1 && seed_matches ctx f then
              { st with queue := st.queue ++ [(f, depth + 1)], stats := st.stats.enqueued }
            else st
          else
            let r := ctx.follow_result st.follow_idx
            let st := { st with follow_idx := st.follow_idx + 1 }
            match r with
            | Except.ok _ =>
              let st := { st with stats := st.stats.followed, added := st.added + 1 }
              if depth + 1 ≤ ctx.max_depth - 1 && seed_matches ctx f then
                { st with queue := st.queue ++ [(f, depth + 1)], stats := st.stats.enqueued }
              else st
            | Except.error _ =>
              { st with stats := st.stats.api_error, skipped := st.skipped + 1 }
      else
        { st with stats := st.stats.declined, skipped := st.skipped + 1 }

/-- The `for f in followers` fold over one followers page (line 739). -/
def process_followers (ctx : Ctx) (depth : Nat) :
    List Rec → CrawlState → CrawlState
  | [], st => st
  | f :: rest, st =>
    process_followers ctx depth rest (process_candidate ctx depth st f)

/-- Expansion of one popped frontier entry `(seed, depth)` (lines 714-789):
visited-registry admission, keyword re-validation, the max-depth guard, and a
single follower-page fetch whose failure is not caught here and so
propagates (the try at line 778 wraps only the follow mutation). -/
def expand_seed (ctx : Ctx) (st : CrawlState) (seed : Rec) (depth : Nat) :
    Except String CrawlState :=
  if ¬ pyTruthy (key_of seed) || keyStr seed ∈ st.visited_seeds then Except.ok st
  else
    let st := { st with visited_seeds := keyStr seed :: st.visited_seeds }
    if ¬ seed_matches ctx seed then Except.ok st
    else if ctx.max_depth ≤ depth then
      Except.ok { st with deep_skips := st.deep_skips + 1 }
    else
      let r := ctx.fetch st.fetch_idx
      let st := { st with fetch_idx := st.fetch_idx + 1 }
      match r with
      | Except.error e => Except.error e
      | Except.ok pages =>
        Except.ok (pages.foldl (fun s page => process_followers ctx depth page s) st)

/-- Recursion of the inner `while seed_buffer and len(queue) < batch_size`
loop (lines 698-707), with the buffer passed explicitly. -/
def drain_go (ctx : Ctx) : List Rec → CrawlState → CrawlState
  | [], st => st
  | seed :: rest, st =>
    if st.queue.length < ctx.batch_size then
      let st :=
        if ¬ pyTruthy (key_of seed) || keyStr seed ∈ st.visited_seeds then st
        else
          let st := { st with stats := st.stats.seed_seen }
          if ¬ seed_matches ctx seed then st
          else
            { st with stats := st.stats.seed_matched, queue := st.queue ++ [(seed, 0)] }
      drain_go ctx rest st
    else { st with seed_buffer := seed :: rest }

/-- The inner seed-draining loop (lines 698-707) applied to the state. -/
def drain_seeds (ctx : Ctx) (st : CrawlState) : CrawlState :=
  drain_go ctx st.seed_buffer { st with seed_buffer := [] }

/-- Embedding of `refill_seeds` (lines 678-691): pull the next batch from the
seed source into the buffer, reporting whether one was available. -/
def refill_seeds (st : CrawlState) : Bool × CrawlState :=
  match st.seed_source with
  | [] => (false, st)
  | b :: rest =>
    (true, { st with seed_source := rest,
                     current_seed_batch_idx := st.current_seed_batch_idx + 1,
                     seed_buffer := st.seed_buffer ++ b })

/-- Result of one iteration of the `while True` loop. -/
inductive StepRes where
  | continued (s : CrawlState)
  | finished (s : CrawlState)
  | failed (e : String)

/-- One iteration of the `while True` loop (lines 697-789): drain seeds into
the queue, refill or halt when the queue is empty, otherwise pop the head
entry and expand it. -/
def crawl_step (ctx : Ctx) (st : CrawlState) : StepRes :=
  let st := drain_seeds ctx st
  match st.queue with
  | [] =>
    let p := refill_seeds st
    if p.1 then StepRes.continued p.2 else StepRes.finished p.2
  | (seed, depth) :: qrest =>
    match expand_seed ctx { st with queue := qrest } seed depth with
    | Except.ok s2 => StepRes.continued s2
    | Except.error e => StepRes.failed e

/-- Result of running the loop for a bounded number of iterations. -/
inductive RunRes where
  | running (s : CrawlState)
  | finished (s : CrawlState)
  | failed (e : String)

/-- Iterate `crawl_step` up to `fuel` times (the source loop is unbounded;
every reachable state is reached at some fuel). -/
def run_crawl (ctx : Ctx) : Nat → CrawlState → RunRes
  | 0, st => RunRes.running st
  | fuel + 1, st =>
    match crawl_step ctx st with
    | StepRes.continued s => run_crawl ctx fuel s
    | StepRes.finished s => RunRes.finished s
    | StepRes.failed e => RunRes.failed e

/-- Initial locals of `mode_degreesearch` (lines 659-673). -/
def init_state (seed_batches : List (List Rec)) : CrawlState :=
  { seed_source := seed_batches, seed_buffer := [], queue := [],
    visited_seeds := [], seen_candidates := [], session_followed := [],
    added := 0, skipped := 0, stats := Stats.init 100,
    prompt_idx := 0, follow_idx := 0, fetch_idx := 0,
    deep_skips := 0, current_seed_batch_idx := 0 }

/-- Main flow of `mode_degreesearch` (lines 693-789): the initial refill, the
early return when no seed data comes back, then the crawl loop.
`seed_batches` is the sequence of batches yielded by `iter_follows`; the
keywords-empty early return at lines 597-599 performs no crawl and is not
modelled. -/
def mode_degreesearch (ctx : Ctx) (seed_batches : List (List Rec))
    (fuel : Nat) : RunRes :=
  let p := refill_seeds (init_state seed_batches)
  if !p.1 && p.2.seed_buffer.isEmpty then RunRes.finished p.2
  else run_crawl ctx fuel p.2

/-- Literal reading of claim C10's fallback clause, for the refinement
comparison with `combine_bio_desc`: the profile description is used only when
the `bio` key is absent (not when it is present but empty). -/
def combine_bio_desc_claim (obj : Rec) : String :=
  let fallback := pyStrip (pyOrD
    (match obj.profile with | none => none | some p => p.description) "")
  let bio := match obj.bio with
    | some b => pyStrip b
    | none => fallback
  let desc := pyStrip (pyOrD obj.description "")
  pyStrip (pyJoinSpace (([bio, desc]).filter (fun s => s ≠ "")))

/-- Reading of claim C10 as amended: the profile-description fallback applies
when the `bio` field is absent or empty. -/
def combine_bio_desc_claim_amended (obj : Rec) : String :=
  let fallback := pyStrip (pyOrD
    (match obj.profile with | none => none | some p => p.description) "")
  let bio := match obj.bio with
    | some b => if b = "" then fallback else pyStrip b
    | none => fallback
  let desc := pyStrip (pyOrD obj.description "")
  pyStrip (pyJoinSpace (([bio, desc]).filter (fun s => s ≠ "")))

def accepted_follow_ok (ctx : Ctx) (st : CrawlState) (f : Rec) : Bool :=
  pyTruthy (key_of f) &&
  !(decide (keyStr f ∈ st.seen_candidates)) &&
  !(decide (keyStr f = ctx.did)) &&
  !(pyTruthy f.viewer_following || decide (keyStr f ∈ st.session_followed)) &&
  matches_any_keyword (combine_bio_desc f) ctx.keywords &&
  (let choice := pyLower (pyStrip (ctx.choices st.prompt_idx))
   choice = "" || choice = "y" || choice = "yes") &&
  pyTruthy f.did &&
  (ctx.dry_run ||
    (match ctx.follow_result st.follow_idx with
     | Except.ok _ => true
     | Except.error _ => false))

def toyCtx : Ctx :=
  { keywords := ["biology"], did := "did:me", dry_run := true, max_depth := 1,
    batch_size := 10, choices := fun _ => "", follow_result := fun _ => Except.ok (),
    fetch := fun _ => Except.ok [] }

def bioRec : Rec :=
  { did := some "did:b", handle := some "b.example", displayName := none,
    description := some "biology lab", bio := none, profile := none,
    viewer_following := none }

def errCtx : Ctx :=
  { keywords := ["biology"], did := "did:me", dry_run := false, max_depth := 2,
    batch_size := 10, choices := fun _ => "", follow_result := fun _ => Except.error "apifail",
    fetch := fun _ => Except.error "boom" }

/-- A minimal concrete item used to build concrete server behaviors. -/
def sampleRec : Rec :=
  { did := some "did:a", handle := some "a.example", displayName := none,
    description := none, bio := none, profile := none, viewer_following := none }

/-- A server whose every response carries one item and the same next cursor
"c": a non-advancing (stalling) backend. -/
def stallServer : Nat → Option String → PageResp :=
  fun _ _ => { items := [sampleRec], cursor := some "c" }

/-- Iterated node-observed events against a fresh aggregator with the
degreesearch threshold of 100. -/
def account_seen_iter : Nat → Stats
  | 0 => Stats.init 100
  | m + 1 => (account_seen_iter m).account_seen

def frontier_depths_ok (m : Nat) : RunRes → Prop
  | RunRes.running s => (∀ p ∈ s.queue, p.2 ≤ m - 1) ∧ s.deep_skips = 0
  | RunRes.finished s => (∀ p ∈ s.queue, p.2 ≤ m - 1) ∧ s.deep_skips = 0
  | RunRes.failed _ => True

/-- Head of a whitespace-dropWhile is not whitespace. -/
theorem head?_dropWhile_ws (l : List Char) (c : Char)
    (h : (l.dropWhile Char.isWhitespace).head? = some c) : c.isWhitespace = false := by
  induction l with
  | nil => simp [List.dropWhile] at h
  | cons a as ih =>
    rw [List.dropWhile_cons] at h
    by_cases ha : a.isWhitespace
    · rw [if_pos ha] at h
      exact ih h
    · rw [if_neg ha] at h
      simp only [List.head?_cons, Option.some.injEq] at h
      subst h
      simpa using ha

/-- Output of `pyStrip` neither starts nor ends with whitespace. -/
theorem pyStrip_no_edge_ws (s : String) (c : Char) :
    ((pyStrip s).toList.head? = some c → c.isWhitespace = false) ∧
    ((pyStrip s).toList.getLast? = some c → c.isWhitespace = false) := by
  have hL : (pyStrip s).toList
      = ((s.toList.dropWhile Char.isWhitespace).reverse.dropWhile
          Char.isWhitespace).reverse := rfl
  constructor
  · intro h
    rw [hL] at h
    have hpre : ((s.toList.dropWhile Char.isWhitespace).reverse.dropWhile
        Char.isWhitespace).reverse <+: s.toList.dropWhile Char.isWhitespace :=
      List.rdropWhile_prefix _ _
    obtain ⟨t, ht⟩ := hpre
    have hx : (s.toList.dropWhile Char.isWhitespace).head? = some c := by
      rw [← ht]
      cases hcase : ((s.toList.dropWhile Char.isWhitespace).reverse.dropWhile
          Char.isWhitespace).reverse with
      | nil => rw [hcase] at h; simp at h
      | cons d ds =>
        rw [hcase] at h
        simp only [List.head?_cons, Option.some.injEq] at h
        subst h
        simp
    exact head?_dropWhile_ws _ _ hx
  · intro h
    rw [hL] at h
    rw [← List.head?_reverse, List.reverse_reverse] at h
    exact head?_dropWhile_ws _ _ h

/-- Claim C8: the text matcher lower-cases and whitespace-collapses the text
and returns true exactly when some (identically normalized) phrase occurs as
a contiguous substring of the normalized text; it returns false whenever the
text is empty or the phrase set is empty; the text "xenobiology research"
matches the phrase "biology" but not the phrase "bio logy". -/
theorem claim_C8_phrase_substring_match :
    (∀ (text : String) (keywords : List String),
        matches_any_keyword text keywords = true ↔
          text ≠ "" ∧ keywords ≠ [] ∧
            ∃ kw ∈ keywords,
              kw.toList <:+: (pyJoinSpace (pySplitWs (pyLower text))).toList) ∧
    (∀ keywords, matches_any_keyword "" keywords = false) ∧
    (∀ text, matches_any_keyword text [] = false) ∧
    matches_any_keyword "xenobiology research" (read_keywords ["biology"]) = true ∧
    matches_any_keyword "xenobiology research" (read_keywords ["bio logy"]) = false := by
  refine ⟨?_, ?_, ?_, by decide, by decide⟩
  · intro text keywords
    unfold matches_any_keyword
    by_cases ht : text = ""
    · simp [ht]
    · by_cases hk : keywords = []
      · simp [ht, hk]
      · simp [ht, hk, pyInStr, List.any_eq_true]
  · intro keywords
    unfold matches_any_keyword
    simp
  · intro text
    unfold matches_any_keyword
    simp

/-- Claim C10 counterexample: on a record whose `bio` key is present but
empty while the nested profile description is "x", the code falls back to the
profile description and returns "x", whereas the computation the claim
describes (fallback only when `bio` is absent) returns "". -/
theorem claim_C10_counterexample :
    combine_bio_desc
        { did := none, handle := none, displayName := none, description := none,
          bio := some "", profile := some { description := some "x" },
          viewer_following := none } = "x" ∧
    combine_bio_desc_claim
        { did := none, handle := none, displayName := none, description := none,
          bio := some "", profile := some { description := some "x" },
          viewer_following := none } = "" := by
  constructor <;> decide

/-- Claim C10 as amended: `combine_bio_desc` is total, returns a string with
no leading or trailing whitespace, takes the top-level bio field falling back
to the nested profile description when bio is absent or empty, joins it
before the top-level description with a single space omitting empty parts,
and returns the empty string when all of these fields are absent or empty. -/
theorem claim_C10_combine_bio_desc_amended :
    (∀ obj : Rec, combine_bio_desc obj = combine_bio_desc_claim_amended obj) ∧
    (∀ (obj : Rec) (c : Char),
        ((combine_bio_desc obj).toList.head? = some c → c.isWhitespace = false) ∧
        ((combine_bio_desc obj).toList.getLast? = some c → c.isWhitespace = false)) ∧
    (∀ obj : Rec, pyTruthy obj.bio = false → pyTruthy obj.description = false →
        pyTruthy (match obj.profile with | none => none | some p => p.description)
          = false →
        combine_bio_desc obj = "") := by
  refine ⟨?_, ?_, ?_⟩
  · intro obj
    unfold combine_bio_desc combine_bio_desc_claim_amended
    cases hb : obj.bio with
    | none => simp [pyOrD]
    | some b =>
      by_cases hbe : b = "" <;> simp [pyOrD, hbe]
  · intro obj c
    unfold combine_bio_desc
    exact pyStrip_no_edge_ws _ c
  · intro obj hb hd hp
    have hfb : ∀ (x : Option String) (d : String), pyTruthy x = false → pyOrD x d = d := by
      intro x d hx
      cases x with
      | none => rfl
      | some v =>
        simp [pyTruthy] at hx
        simp [pyOrD, hx]
    have h1 : pyOrD obj.bio (pyOrD
        (match obj.profile with | none => none | some p => p.description) "") = "" := by
      rw [hfb _ _ hb, hfb _ _ hp]
    have h2 : pyOrD obj.description "" = "" := hfb _ _ hd
    simp only [combine_bio_desc]
    rw [h1, h2]
    decide

/-- Witness for the amended claim C10 at a concrete record: the implication
clause applied to the all-absent record yields the empty string. -/
theorem claim_C10_amended_witness :
    combine_bio_desc
        { did := none, handle := none, displayName := none, description := none,
          bio := none, profile := none, viewer_following := none } = "" :=
  claim_C10_combine_bio_desc_amended.2.2
    { did := none, handle := none, displayName := none, description := none,
      bio := none, profile := none, viewer_following := none }
    (by decide) (by decide) (by decide)

/-- The follows iterator yields at most `remaining` batches. -/
theorem iter_follows_go_length_le (server : Nat → Option String → PageResp) :
    ∀ (remaining : Nat) (cursor : Option String) (pages : Nat),
      (iter_follows_go server cursor pages remaining).length ≤ remaining := by
  intro remaining
  induction remaining with
  | zero => intro cursor pages; simp [iter_follows_go]
  | succ n ih =>
    intro cursor pages
    simp only [iter_follows_go]
    split
    · simp
    · split
      · simp
      · simpa using ih _ _

/-- The followers iterator yields at most `remaining` batches. -/
theorem iter_followers_go_length_le (server : Nat → Option String → PageResp) :
    ∀ (remaining : Nat) (cursor : Option String) (pages : Nat),
      (iter_followers_go server cursor pages remaining).length ≤ remaining := by
  intro remaining
  induction remaining with
  | zero => intro cursor pages; simp [iter_followers_go]
  | succ n ih =>
    intro cursor pages
    simp only [iter_followers_go]
    split
    · simp
    · split
      · simp
      · simpa using ih _ _

/-- The actor-search iterator yields at most `remaining` batches. -/
theorem iter_search_actors_go_length_le (server : Nat → Option String → PageResp) :
    ∀ (remaining : Nat) (cursor : Option String) (pages : Nat),
      (iter_search_actors_go server cursor pages remaining).length ≤ remaining := by
  intro remaining
  induction remaining with
  | zero => intro cursor pages; simp [iter_search_actors_go]
  | succ n ih =>
    intro cursor pages
    simp only [iter_search_actors_go]
    split
    · simp
    · split
      · simp
      · simpa using ih _ _

/-- Claim C6: every pagination stream yields at most `max_pages` batches and
then terminates, for every server cursor behavior, including a cursor that
never advances. -/
theorem claim_C6_pagination_max_pages :
    ∀ (server : Nat → Option String → PageResp) (max_pages : Nat),
      (iter_follows server max_pages).length ≤ max_pages ∧
      (iter_followers server max_pages).length ≤ max_pages ∧
      (iter_search_actors server max_pages).length ≤ max_pages := by
  intro server max_pages
  exact ⟨iter_follows_go_length_le server max_pages none 0,
         iter_followers_go_length_le server max_pages none 0,
         iter_search_actors_go_length_le server max_pages none 0⟩

/-- Claim C3 counterexample: against the stalling server, the actor-search
stream's second request uses cursor "c" and the response again carries next
cursor "c" (a non-advancing page), yet the stream does not terminate after
that page: with `max_pages = 3` it yields all three batches, so a third page
request was issued after the stall. -/
theorem claim_C3_counterexample :
    (iter_search_actors stallServer 3).length = 3 ∧
    (stallServer 1 (some "c")).cursor = some "c" ∧
    (stallServer 1 (some "c")).items ≠ [] := by
  refine ⟨by decide, by decide, by decide⟩

/-- Claim C3 as amended: for the follows and followers streams a response
cursor equal to the request cursor terminates pagination after that page;
the actor-search stream has no such stall guard and, against a permanently
stalling server, runs on to the `max_pages` ceiling. -/
theorem claim_C3_stall_guard_amended :
    (∀ (server : Nat → Option String → PageResp) (cursor : Option String)
        (pages r : Nat),
        (server pages cursor).items ≠ [] →
        ((server pages cursor).cursor == cursor) = true →
        iter_follows_go server cursor pages (r + 1) = [(server pages cursor).items]) ∧
    (∀ (server : Nat → Option String → PageResp) (cursor : Option String)
        (pages r : Nat),
        (server pages cursor).items ≠ [] →
        ((server pages cursor).cursor == cursor) = true →
        iter_followers_go server cursor pages (r + 1) = [(server pages cursor).items]) ∧
    (∀ max_pages : Nat, (iter_search_actors stallServer max_pages).length = max_pages) := by
  refine ⟨?_, ?_, ?_⟩
  · intro server cursor pages r hne hstall
    simp only [iter_follows_go]
    simp [List.isEmpty_iff, hne, hstall]
  · intro server cursor pages r hne hstall
    simp only [iter_followers_go]
    simp [List.isEmpty_iff, hne, hstall]
  · have hgo : ∀ (remaining : Nat) (cursor : Option String) (pages : Nat),
        (iter_search_actors_go stallServer cursor pages remaining).length = remaining := by
      intro remaining
      induction remaining with
      | zero => intro cursor pages; simp [iter_search_actors_go]
      | succ n ih =>
        intro cursor pages
        simp only [iter_search_actors_go, stallServer]
        simp [cursorFalsy, ih]
    intro max_pages
    exact hgo max_pages none 0

/-- Witness for the amended claim C3: a stalled page (request cursor "c",
response cursor "c") makes the follows and followers iterators stop after
that single batch even with page budget left. -/
theorem claim_C3_amended_witness :
    iter_follows_go stallServer (some "c") 1 3 = [[sampleRec]] ∧
    iter_followers_go stallServer (some "c") 1 3 = [[sampleRec]] :=
  ⟨claim_C3_stall_guard_amended.1 stallServer (some "c") 1 2 (by decide) (by decide),
   claim_C3_stall_guard_amended.2.1 stallServer (some "c") 1 2 (by decide) (by decide)⟩

set_option maxRecDepth 100000 in
/-- Claim C5: the aggregator increments both the block and cumulative counter
on every recorded event; when the block value of the followers_iterated
counter reaches the threshold it emits one snapshot of both counter maps and
resets only the block counters, never the cumulative ones; and a run of 250
node-observed events emits exactly 2 snapshots (with cumulative counts 100
and 200 at emission) leaving 50 events unflushed. -/
theorem claim_C5_stats_aggregator :
    (∀ (s : Stats) (k : String),
        (s._b k).block k = s.block k + 1 ∧ (s._b k).cum k = s.cum k + 1 ∧
        (s._b k).reports = s.reports) ∧
    (∀ s : Stats,
        (s.n ≤ s.block "followers_iterated" + 1 →
          s.account_seen.reports =
            ((s._b "followers_iterated").block,
             (s._b "followers_iterated").cum) :: s.reports ∧
          (∀ k, s.account_seen.block k = 0) ∧
          s.account_seen.cum = (s._b "followers_iterated").cum) ∧
        (s.block "followers_iterated" + 1 < s.n →
          s.account_seen.reports = s.reports ∧
          s.account_seen.block = (s._b "followers_iterated").block ∧
          s.account_seen.cum = (s._b "followers_iterated").cum)) ∧
    (account_seen_iter 250).reports.length = 2 ∧
    (account_seen_iter 250).block "followers_iterated" = 50 ∧
    (account_seen_iter 250).cum "followers_iterated" = 250 ∧
    (account_seen_iter 250).reports.map (fun p => p.2 "followers_iterated") = [200, 100] ∧
    (account_seen_iter 250).reports.map (fun p => p.1 "followers_iterated") = [100, 100] := by
  refine ⟨?_, ?_, by decide, by decide, by decide, by decide, by decide⟩
  · intro s k
    refine ⟨?_, ?_, rfl⟩ <;> simp [Stats._b]
  · intro s
    constructor
    · intro h
      have hcond : ((s._b "followers_iterated").n ≤
          (s._b "followers_iterated").block "followers_iterated") := by
        simpa [Stats._b] using h
      unfold Stats.account_seen
      rw [if_pos hcond]
      exact ⟨rfl, fun k => rfl, rfl⟩
    · intro h
      have hcond : ¬ ((s._b "followers_iterated").n ≤
          (s._b "followers_iterated").block "followers_iterated") := by
        simp [Stats._b]
        omega
      unfold Stats.account_seen
      rw [if_neg hcond]
      exact ⟨rfl, rfl, rfl⟩

/-- Witness for claim C5's implication clauses at concrete aggregators: an
aggregator with threshold 1 flushes on its first node-observed event, and a
fresh aggregator with threshold 100 does not flush on its first event. -/
theorem claim_C5_witness :
    (Stats.init 1).account_seen.reports =
      [(((Stats.init 1)._b "followers_iterated").block,
        ((Stats.init 1)._b "followers_iterated").cum)] ∧
    (Stats.init 100).account_seen.reports = [] :=
  ⟨((claim_C5_stats_aggregator.2.1 (Stats.init 1)).1 (by decide)).1,
   ((claim_C5_stats_aggregator.2.1 (Stats.init 100)).2 (by decide)).1⟩

theorem process_candidate_spec (ctx : Ctx) (st : CrawlState) (depth : Nat) (f : Rec) :
    (process_candidate ctx depth st f).queue =
      st.queue ++
        (if accepted_follow_ok ctx st f = true ∧ depth + 1 < ctx.max_depth ∧
            seed_matches ctx f = true
         then [(f, depth + 1)] else []) ∧
    (process_candidate ctx depth st f).deep_skips = st.deep_skips ∧
    (process_candidate ctx depth st f).fetch_idx = st.fetch_idx := by
  unfold process_candidate accepted_follow_ok seed_matches
  by_cases h1 : pyTruthy (key_of f) = true
  case neg => simp [h1]
  by_cases h2 : keyStr f ∈ st.seen_candidates
  case pos => simp [h1, h2]
  by_cases h3 : keyStr f = ctx.did
  case pos =>
    refine ⟨?_, ?_, ?_⟩ <;> (simp [h1, h2, h3]; split <;> rfl)
  by_cases h4 : (pyTruthy f.viewer_following ||
      decide (keyStr f ∈ st.session_followed)) = true
  case pos => simp [h1, h2, h3, h4]
  by_cases h5 : matches_any_keyword (combine_bio_desc f) ctx.keywords = true
  case neg => simp [h1, h2, h3, h4, h5]
  by_cases h6 : ((pyLower (pyStrip (ctx.choices st.prompt_idx)) = "" : Bool) ||
      (pyLower (pyStrip (ctx.choices st.prompt_idx)) = "y" : Bool) ||
      (pyLower (pyStrip (ctx.choices st.prompt_idx)) = "yes" : Bool)) = true
  case neg => simp [h1, h2, h3, h4, h5, h6]
  by_cases h7 : pyTruthy f.did = true
  case neg => simp [h1, h2, h3, h4, h5, h6, h7]
  by_cases h8 : ctx.dry_run = true
  · by_cases h9 : depth + 1 ≤ ctx.max_depth - 1
    · have h9' : depth + 1 < ctx.max_depth := by omega
      simp [h1, h2, h3, h4, h5, h6, h7, h8, h9, h9']
    · have h9' : ¬ (depth + 1 < ctx.max_depth) := by omega
      simp [h1, h2, h3, h4, h5, h6, h7, h8, h9, h9']
  · cases hr : ctx.follow_result st.follow_idx with
    | ok u =>
      by_cases h9 : depth + 1 ≤ ctx.max_depth - 1
      · have h9' : depth + 1 < ctx.max_depth := by omega
        simp [h1, h2, h3, h4, h5, h6, h7, h8, h9, h9', hr]
      · have h9' : ¬ (depth + 1 < ctx.max_depth) := by omega
        simp [h1, h2, h3, h4, h5, h6, h7, h8, h9, h9', hr]
    | error e =>
      simp [h1, h2, h3, h4, h5, h6, h7, h8, hr]


/-- Claim C1: when a candidate processed from a frontier entry at depth `d`
is accepted and the follow succeeds (or dry-run is active), it is enqueued at
depth `d + 1` exactly when `d + 1 < max_depth` and the candidate still passes
the keyword matcher at enqueue time; in every other case the queue is
unchanged. -/
theorem claim_C1_enqueue_iff :
    ∀ (ctx : Ctx) (st : CrawlState) (depth : Nat) (f : Rec),
      (process_candidate ctx depth st f).queue =
        st.queue ++
          (if accepted_follow_ok ctx st f = true ∧ depth + 1 < ctx.max_depth ∧
              seed_matches ctx f = true
           then [(f, depth + 1)] else []) :=
  fun ctx st depth f => (process_candidate_spec ctx st depth f).1

theorem expand_seed_deep (ctx : Ctx) (st : CrawlState) (seed : Rec) (depth : Nat)
    (h : ctx.max_depth ≤ depth) :
    ∃ s', expand_seed ctx st seed depth = Except.ok s' ∧
      s'.fetch_idx = st.fetch_idx ∧ s'.queue = st.queue := by
  unfold expand_seed
  by_cases hk : pyTruthy (key_of seed) = true
  · by_cases hv : keyStr seed ∈ st.visited_seeds
    · exact ⟨st, by simp [hk, hv], rfl, rfl⟩
    · by_cases hm : seed_matches ctx seed = true
      · refine ⟨{ st with visited_seeds := keyStr seed :: st.visited_seeds, deep_skips := st.deep_skips + 1 }, ?_, rfl, rfl⟩
        simp [hk, hv, hm, h]
      · refine ⟨{ st with visited_seeds := keyStr seed :: st.visited_seeds }, ?_, rfl, rfl⟩
        simp [hk, hv, hm]
  · exact ⟨st, by simp [hk], rfl, rfl⟩

/-- Claim C2 counterexample: with `max_depth = 1`, an accepted, matching,
successfully followed candidate processed from a frontier entry at depth
0 = max_depth - 1 produces no new frontier entry at all (the claim asserts a
new entry at depth max_depth is created): the accept path ran (`added` became
1) yet the queue stays empty. -/
theorem claim_C2_counterexample :
    (process_candidate toyCtx 0 (init_state []) bioRec).queue = [] ∧
    (process_candidate toyCtx 0 (init_state []) bioRec).added = 1 ∧
    toyCtx.max_depth - 1 = 0 ∧ seed_matches toyCtx bioRec = true := by
  refine ⟨by decide, by decide, by decide, by decide⟩

/-- Claim C2 as amended: an accepted frontier entry at depth
`max_depth - 1` creates no new frontier entry (the enqueue guard requires
`depth + 1 <= max_depth - 1`), so entries at depth `max_depth` never arise;
and a frontier entry at depth at least `max_depth` is never expanded: its
expansion performs zero follower-fetch calls and leaves the queue
unchanged. -/
theorem claim_C2_deepest_level_amended :
    (∀ (ctx : Ctx) (st : CrawlState) (depth : Nat) (f : Rec),
        depth = ctx.max_depth - 1 →
        (process_candidate ctx depth st f).queue = st.queue) ∧
    (∀ (ctx : Ctx) (st : CrawlState) (seed : Rec) (depth : Nat),
        ctx.max_depth ≤ depth →
        ∃ s', expand_seed ctx st seed depth = Except.ok s' ∧
          s'.fetch_idx = st.fetch_idx ∧ s'.queue = st.queue) := by
  constructor
  · intro ctx st depth f hd
    have h := (process_candidate_spec ctx st depth f).1
    have hfalse : ¬ (accepted_follow_ok ctx st f = true ∧
        depth + 1 < ctx.max_depth ∧ seed_matches ctx f = true) := by
      rintro ⟨-, hlt, -⟩
      omega
    rw [h, if_neg hfalse, List.append_nil]
  · intro ctx st seed depth h
    exact expand_seed_deep ctx st seed depth h

/-- Witness for the amended claim C2 at depth 0 with `max_depth = 1`: no
enqueue happens. -/
theorem claim_C2_amended_witness :
    (process_candidate toyCtx 0 (init_state []) bioRec).queue = [] :=
  claim_C2_deepest_level_amended.1 toyCtx (init_state []) 0 bioRec (by decide)

theorem mem_applyRegisters (ops : List String) (s : List String) (key : String)
    (h : key ∈ s) : key ∈ applyRegisters ops s := by
  induction ops generalizing s with
  | nil => simpa [applyRegisters] using h
  | cons o os ih =>
    simp only [applyRegisters, List.foldl_cons]
    have hstep : key ∈ (register_key o s).2 := by
      unfold register_key
      by_cases ho : o ∈ s
      · simpa [ho] using h
      · simp [ho, h]
    simpa [applyRegisters] using ih _ hstep

/-- Claim C4: the first admission of a key returns true and records it;
after any further admissions, a repeated admission of the same key reports
already-present and leaves the registry unchanged; in the crawl, a candidate
whose key is in `seen_candidates` is a pure dedup-skip (no prompt, no
mutation beyond the two stats counters), and a seed whose key is in
`visited_seeds` is skipped with the state returned untouched (never
re-expanded). -/
theorem claim_C4_dedup_registry :
    (∀ (key : String) (s : List String),
        key ∉ s → (register_key key s).1 = true ∧ key ∈ (register_key key s).2) ∧
    (∀ (key : String) (s : List String) (ops : List String),
        key ∈ s → register_key key (applyRegisters ops s) = (false, applyRegisters ops s)) ∧
    (∀ (ctx : Ctx) (st : CrawlState) (depth : Nat) (f : Rec),
        pyTruthy (key_of f) = true → keyStr f ∈ st.seen_candidates →
        process_candidate ctx depth st f =
          { st with stats := st.stats.account_seen.dedup_skip }) ∧
    (∀ (ctx : Ctx) (st : CrawlState) (seed : Rec) (depth : Nat),
        keyStr seed ∈ st.visited_seeds →
        expand_seed ctx st seed depth = Except.ok st) := by
  refine ⟨?_, ?_, ?_, ?_⟩
  · intro key s h
    simp [register_key, h]
  · intro key s ops h
    have hm : key ∈ applyRegisters ops s := mem_applyRegisters ops s key h
    simp [register_key, hm]
  · intro ctx st depth f h1 h2
    unfold process_candidate
    simp [h1, h2]
  · intro ctx st seed depth hv
    unfold expand_seed
    simp [hv]

/-- Witness for claim C4 at concrete registries and records. -/
theorem claim_C4_witness :
    (register_key "a" []).1 = true ∧ "a" ∈ (register_key "a" []).2 ∧
    register_key "a" (applyRegisters ["b", "a", "c"] ["a"]) =
      (false, applyRegisters ["b", "a", "c"] ["a"]) ∧
    expand_seed toyCtx
        { init_state [] with visited_seeds := ["did:b"] } bioRec 0 =
      Except.ok { init_state [] with visited_seeds := ["did:b"] } ∧
    process_candidate toyCtx 0
        { init_state [] with seen_candidates := ["did:b"] } bioRec =
      { { init_state [] with seen_candidates := ["did:b"] } with
          stats := ({ init_state [] with
            seen_candidates := ["did:b"] }).stats.account_seen.dedup_skip } :=
  ⟨(claim_C4_dedup_registry.1 "a" [] (by decide)).1,
   (claim_C4_dedup_registry.1 "a" [] (by decide)).2,
   claim_C4_dedup_registry.2.1 "a" ["a"] ["b", "a", "c"] (by decide),
   claim_C4_dedup_registry.2.2.2 toyCtx _ bioRec 0 (by decide),
   claim_C4_dedup_registry.2.2.1 toyCtx _ 0 bioRec (by decide) (by decide)⟩


theorem stats_cum_account_seen (s : Stats) (k : String) :
    s.account_seen.cum k = (s._b "followers_iterated").cum k := by
  unfold Stats.account_seen
  by_cases h : (s._b "followers_iterated").n ≤
      (s._b "followers_iterated").block "followers_iterated"
  · simp [h, Stats.report_block]
  · simp [h]

theorem stats_cum_b_ne (s : Stats) (k j : String) (h : k ≠ j) :
    (s._b j).cum k = s.cum k := by
  simp [Stats._b, h]

theorem process_candidate_follow_error (ctx : Ctx) (st : CrawlState) (depth : Nat)
    (f : Rec) (e : String)
    (h1 : pyTruthy (key_of f) = true)
    (h2 : keyStr f ∉ st.seen_candidates)
    (h3 : keyStr f ≠ ctx.did)
    (h4 : (pyTruthy f.viewer_following ||
        decide (keyStr f ∈ st.session_followed)) = false)
    (h5 : matches_any_keyword (combine_bio_desc f) ctx.keywords = true)
    (h6 : ((pyLower (pyStrip (ctx.choices st.prompt_idx)) = "" : Bool) ||
        (pyLower (pyStrip (ctx.choices st.prompt_idx)) = "y" : Bool) ||
        (pyLower (pyStrip (ctx.choices st.prompt_idx)) = "yes" : Bool)) = true)
    (h7 : pyTruthy f.did = true)
    (h8 : ctx.dry_run = false)
    (h9 : ctx.follow_result st.follow_idx = Except.error e) :
    process_candidate ctx depth st f =
      { st with
          seen_candidates := keyStr f :: st.seen_candidates,
          session_followed := (f.did).getD "" :: st.session_followed,
          stats := st.stats.account_seen.candidate.api_error,
          prompt_idx := st.prompt_idx + 1,
          follow_idx := st.follow_idx + 1,
          skipped := st.skipped + 1 } := by
  unfold process_candidate
  simp [h1, h2, h3, h4, h5, h6, h7, h8, h9, Stats.api_error]

/-- Claim C7: a failing follow mutation is caught per candidate — the
candidate outcome records `api_error` and one more skip, the queue gains no
entry, and page processing continues with the next candidate — whereas a
failing follower-page fetch is not caught: seed expansion returns the error,
one failing step makes `run_crawl` stop with that error, and a concrete run
with a failing fetch oracle aborts wholesale with it. -/
theorem claim_C7_error_handling :
    (∀ (ctx : Ctx) (st : CrawlState) (depth : Nat) (f : Rec) (e : String),
        pyTruthy (key_of f) = true →
        keyStr f ∉ st.seen_candidates →
        keyStr f ≠ ctx.did →
        (pyTruthy f.viewer_following ||
            decide (keyStr f ∈ st.session_followed)) = false →
        matches_any_keyword (combine_bio_desc f) ctx.keywords = true →
        ((pyLower (pyStrip (ctx.choices st.prompt_idx)) = "" : Bool) ||
            (pyLower (pyStrip (ctx.choices st.prompt_idx)) = "y" : Bool) ||
            (pyLower (pyStrip (ctx.choices st.prompt_idx)) = "yes" : Bool)) = true →
        pyTruthy f.did = true →
        ctx.dry_run = false →
        ctx.follow_result st.follow_idx = Except.error e →
        (process_candidate ctx depth st f).stats.cum "api_error" =
            st.stats.cum "api_error" + 1 ∧
        (process_candidate ctx depth st f).skipped = st.skipped + 1 ∧
        (process_candidate ctx depth st f).queue = st.queue ∧
        (process_candidate ctx depth st f).added = st.added) ∧
    (∀ (ctx : Ctx) (depth : Nat) (f : Rec) (rest : List Rec) (st : CrawlState),
        process_followers ctx depth (f :: rest) st =
          process_followers ctx depth rest (process_candidate ctx depth st f)) ∧
    (∀ (ctx : Ctx) (st : CrawlState) (seed : Rec) (depth : Nat) (e : String),
        pyTruthy (key_of seed) = true →
        keyStr seed ∉ st.visited_seeds →
        seed_matches ctx seed = true →
        depth < ctx.max_depth →
        ctx.fetch st.fetch_idx = Except.error e →
        expand_seed ctx st seed depth = Except.error e) ∧
    (∀ (ctx : Ctx) (st : CrawlState) (fuel : Nat) (e : String),
        crawl_step ctx st = StepRes.failed e →
        run_crawl ctx (fuel + 1) st = RunRes.failed e) ∧
    mode_degreesearch errCtx [[bioRec]] 5 = RunRes.failed "boom" := by
  refine ⟨?_, ?_, ?_, ?_, ?_⟩
  · intro ctx st depth f e h1 h2 h3 h4 h5 h6 h7 h8 h9
    rw [process_candidate_follow_error ctx st depth f e h1 h2 h3 h4 h5 h6 h7 h8 h9]
    refine ⟨?_, rfl, rfl, rfl⟩
    show (st.stats.account_seen.candidate.api_error).cum "api_error" =
      st.stats.cum "api_error" + 1
    unfold Stats.api_error Stats.candidate
    have hself : ∀ s : Stats, (s._b "api_error").cum "api_error" =
        s.cum "api_error" + 1 := by
      intro s
      simp [Stats._b]
    rw [hself]
    rw [stats_cum_b_ne _ _ _ (by decide), stats_cum_b_ne _ _ _ (by decide)]
    rw [stats_cum_account_seen, stats_cum_b_ne _ _ _ (by decide)]
  · intro ctx depth f rest st
    rfl
  · intro ctx st seed depth e hk hv hm hd hf
    unfold expand_seed
    have hlt : ¬ (ctx.max_depth ≤ depth) := by omega
    simp [hk, hv, hm, hlt, hf]
  · intro ctx st fuel e h
    unfold run_crawl
    rw [h]
  · rfl

/-- Witness for claim C7 at a concrete context whose follow endpoint fails. -/
theorem claim_C7_witness :
    (process_candidate errCtx 0 (init_state []) bioRec).stats.cum "api_error" =
        (init_state []).stats.cum "api_error" + 1 ∧
    (process_candidate errCtx 0 (init_state []) bioRec).skipped = 0 + 1 ∧
    (process_candidate errCtx 0 (init_state []) bioRec).queue = [] ∧
    (process_candidate errCtx 0 (init_state []) bioRec).added = 0 :=
  claim_C7_error_handling.1 errCtx (init_state []) 0 bioRec "apifail"
    (by decide) (by decide) (by decide) (by decide) (by decide) (by decide)
    (by decide) (by decide) rfl


theorem process_followers_inv (ctx : Ctx) (depth : Nat) :
    ∀ (fs : List Rec) (st : CrawlState),
      (∀ p ∈ st.queue, p.2 < ctx.max_depth) →
      (∀ p ∈ (process_followers ctx depth fs st).queue, p.2 < ctx.max_depth) ∧
      (process_followers ctx depth fs st).deep_skips = st.deep_skips := by
  intro fs
  induction fs with
  | nil => intro st h; exact ⟨h, rfl⟩
  | cons f rest ih =>
    intro st h
    have hspec := process_candidate_spec ctx st depth f
    have hq : ∀ p ∈ (process_candidate ctx depth st f).queue, p.2 < ctx.max_depth := by
      intro p hp
      rw [hspec.1] at hp
      rcases List.mem_append.mp hp with hp | hp
      · exact h p hp
      · by_cases hc : accepted_follow_ok ctx st f = true ∧
            depth + 1 < ctx.max_depth ∧ seed_matches ctx f = true
        · rw [if_pos hc] at hp
          simp at hp
          rw [hp]
          exact hc.2.1
        · rw [if_neg hc] at hp
          simp at hp
    have hrest := ih (process_candidate ctx depth st f) hq
    simp only [process_followers]
    exact ⟨hrest.1, hrest.2.trans hspec.2.1⟩

theorem foldl_followers_inv (ctx : Ctx) (depth : Nat) :
    ∀ (pages : List (List Rec)) (st : CrawlState),
      (∀ p ∈ st.queue, p.2 < ctx.max_depth) →
      (∀ p ∈ (pages.foldl (fun s page => process_followers ctx depth page s) st).queue,
          p.2 < ctx.max_depth) ∧
      (pages.foldl (fun s page => process_followers ctx depth page s) st).deep_skips
        = st.deep_skips := by
  intro pages
  induction pages with
  | nil => intro st h; exact ⟨h, rfl⟩
  | cons page rest ih =>
    intro st h
    simp only [List.foldl_cons]
    have h1 := process_followers_inv ctx depth page st h
    have h2 := ih (process_followers ctx depth page st) h1.1
    exact ⟨h2.1, h2.2.trans h1.2⟩

theorem expand_seed_inv (ctx : Ctx) (st : CrawlState) (seed : Rec) (depth : Nat)
    (hq : ∀ p ∈ st.queue, p.2 < ctx.max_depth) (hd : depth < ctx.max_depth) :
    ∀ s', expand_seed ctx st seed depth = Except.ok s' →
      (∀ p ∈ s'.queue, p.2 < ctx.max_depth) ∧ s'.deep_skips = st.deep_skips := by
  intro s' hs
  unfold expand_seed at hs
  by_cases hk : pyTruthy (key_of seed) = true
  · by_cases hv : keyStr seed ∈ st.visited_seeds
    · simp [hk, hv] at hs
      subst hs
      exact ⟨hq, rfl⟩
    · by_cases hmm : seed_matches ctx seed = true
      · have hneg : ¬ (ctx.max_depth ≤ depth) := by omega
        cases hfetch : ctx.fetch st.fetch_idx with
        | error e => simp [hk, hv, hmm, hneg, hfetch] at hs
        | ok pages =>
          simp [hk, hv, hmm, hneg, hfetch] at hs
          subst hs
          have hfold := foldl_followers_inv ctx depth pages { st with visited_seeds := keyStr seed :: st.visited_seeds, fetch_idx := st.fetch_idx + 1 } hq
          exact ⟨hfold.1, hfold.2⟩
      · simp [hk, hv, hmm] at hs
        subst hs
        exact ⟨hq, rfl⟩
  · simp [hk] at hs
    subst hs
    exact ⟨hq, rfl⟩

theorem drain_go_inv (ctx : Ctx) (hm : 1 ≤ ctx.max_depth) :
    ∀ (buf : List Rec) (st : CrawlState),
      (∀ p ∈ st.queue, p.2 < ctx.max_depth) →
      (∀ p ∈ (drain_go ctx buf st).queue, p.2 < ctx.max_depth) ∧
      (drain_go ctx buf st).deep_skips = st.deep_skips := by
  intro buf
  induction buf with
  | nil => intro st h; exact ⟨h, rfl⟩
  | cons seed rest ih =>
    intro st h
    unfold drain_go
    by_cases hlen : st.queue.length < ctx.batch_size
    · rw [if_pos hlen]
      have key : ∀ st2 : CrawlState,
          st2 = (if ¬ pyTruthy (key_of seed) || keyStr seed ∈ st.visited_seeds then st
            else
              let stx := { st with stats := st.stats.seed_seen }
              if ¬ seed_matches ctx seed then stx
              else { stx with stats := stx.stats.seed_matched, queue := stx.queue ++ [(seed, 0)] }) →
          (∀ p ∈ st2.queue, p.2 < ctx.max_depth) ∧ st2.deep_skips = st.deep_skips := by
        intro st2 hst2
        subst hst2
        split
        · exact ⟨h, rfl⟩
        · split
          · exact ⟨h, rfl⟩
          · constructor
            · intro p hp
              simp only [List.mem_append] at hp
              rcases hp with hp | hp
              · exact h p hp
              · simp at hp
                rw [hp]
                omega
            · rfl
      have hres := key _ rfl
      have := ih _ hres.1
      exact ⟨this.1, this.2.trans hres.2⟩
    · rw [if_neg hlen]
      exact ⟨h, rfl⟩

theorem drain_seeds_inv (ctx : Ctx) (hm : 1 ≤ ctx.max_depth) (st : CrawlState)
    (h : ∀ p ∈ st.queue, p.2 < ctx.max_depth) :
    (∀ p ∈ (drain_seeds ctx st).queue, p.2 < ctx.max_depth) ∧
    (drain_seeds ctx st).deep_skips = st.deep_skips := by
  unfold drain_seeds
  exact drain_go_inv ctx hm st.seed_buffer { st with seed_buffer := [] } h

theorem refill_preserves (st : CrawlState) :
    (refill_seeds st).2.queue = st.queue ∧
    (refill_seeds st).2.deep_skips = st.deep_skips := by
  cases h : st.seed_source <;> simp [refill_seeds, h]

theorem crawl_step_inv (ctx : Ctx) (hm : 1 ≤ ctx.max_depth) (st : CrawlState)
    (hq : ∀ p ∈ st.queue, p.2 < ctx.max_depth) :
    ∀ s', (crawl_step ctx st = StepRes.continued s' ∨
           crawl_step ctx st = StepRes.finished s') →
      (∀ p ∈ s'.queue, p.2 < ctx.max_depth) ∧ s'.deep_skips = st.deep_skips := by
  intro s' hs
  have hdr := drain_seeds_inv ctx hm st hq
  cases hqq : (drain_seeds ctx st).queue with
  | nil =>
    simp only [crawl_step, hqq] at hs
    have hrp := refill_preserves (drain_seeds ctx st)
    by_cases hb : (refill_seeds (drain_seeds ctx st)).1 = true
    · rw [if_pos hb] at hs
      rcases hs with hs | hs
      · injection hs with hs2
        subst hs2
        refine ⟨?_, hrp.2.trans hdr.2⟩
        rw [hrp.1]
        exact hdr.1
      · exact absurd hs (by simp)
    · rw [if_neg hb] at hs
      rcases hs with hs | hs
      · exact absurd hs (by simp)
      · injection hs with hs2
        subst hs2
        refine ⟨?_, hrp.2.trans hdr.2⟩
        rw [hrp.1]
        exact hdr.1
  | cons hd0 qrest =>
    obtain ⟨seed, depth⟩ := hd0
    simp only [crawl_step, hqq] at hs
    have hq1 : ∀ p ∈ (seed, depth) :: qrest, p.2 < ctx.max_depth := by
      rw [← hqq]
      exact hdr.1
    have hq2 : ∀ p ∈ ({ drain_seeds ctx st with queue := qrest } : CrawlState).queue,
        p.2 < ctx.max_depth := by
      intro p hp
      exact hq1 p (List.mem_cons_of_mem _ hp)
    have hdlt : depth < ctx.max_depth := hq1 (seed, depth) (List.mem_cons_self _ _)
    cases hex : expand_seed ctx { drain_seeds ctx st with queue := qrest } seed depth with
    | ok s2 =>
      simp only [hex] at hs
      have h2 := expand_seed_inv ctx { drain_seeds ctx st with queue := qrest }
        seed depth hq2 hdlt s2 hex
      rcases hs with hs | hs
      · injection hs with hs2
        subst hs2
        exact ⟨h2.1, h2.2.trans hdr.2⟩
      · exact absurd hs (by simp)
    | error e =>
      simp only [hex] at hs
      rcases hs with hs | hs <;> exact absurd hs (by simp)

theorem run_crawl_inv (ctx : Ctx) (hm : 1 ≤ ctx.max_depth) :
    ∀ (fuel : Nat) (st : CrawlState),
      (∀ p ∈ st.queue, p.2 < ctx.max_depth) → st.deep_skips = 0 →
      frontier_depths_ok ctx.max_depth (run_crawl ctx fuel st) := by
  intro fuel
  induction fuel with
  | zero =>
    intro st hq hds
    simp only [run_crawl, frontier_depths_ok]
    exact ⟨fun p hp => by have := hq p hp; omega, hds⟩
  | succ n ih =>
    intro st hq hds
    simp only [run_crawl]
    cases hstep : crawl_step ctx st with
    | continued s2 =>
      have h2 := crawl_step_inv ctx hm st hq s2 (Or.inl hstep)
      exact ih s2 h2.1 (h2.2.trans hds)
    | finished s2 =>
      have h2 := crawl_step_inv ctx hm st hq s2 (Or.inr hstep)
      simp only [frontier_depths_ok]
      exact ⟨fun p hp => by have := h2.1 p hp; omega, h2.2.trans hds⟩
    | failed e => simp [frontier_depths_ok]

/-- Claim C9: in every state reachable by the degreesearch crawl (any fuel),
every entry on the frontier queue has depth between 0 and `max_depth - 1`
inclusive — seeds enter at depth 0 and the enqueue guard bounds accepted
candidates — and consequently the expansion-skip branch for entries with
depth at least `max_depth` never executes (`deep_skips` stays 0). -/
theorem claim_C9_frontier_depth_invariant :
    ∀ (ctx : Ctx) (seed_batches : List (List Rec)) (fuel : Nat),
      1 ≤ ctx.max_depth →
      frontier_depths_ok ctx.max_depth (mode_degreesearch ctx seed_batches fuel) := by
  intro ctx seed_batches fuel hm
  have hq : ∀ q ∈ (refill_seeds (init_state seed_batches)).2.queue,
      q.2 < ctx.max_depth := by
    intro q hmem
    cases seed_batches <;> simp [refill_seeds, init_state] at hmem
  have hds : (refill_seeds (init_state seed_batches)).2.deep_skips = 0 := by
    cases seed_batches <;> rfl
  simp only [mode_degreesearch]
  split
  · simp only [frontier_depths_ok]
    exact ⟨fun p hp => by have := hq p hp; omega, hds⟩
  · exact run_crawl_inv ctx hm fuel _ hq hds

/-- Witness for claim C9 at a concrete crawl. -/
theorem claim_C9_witness :
    frontier_depths_ok toyCtx.max_depth (mode_degreesearch toyCtx [[bioRec]] 3) :=
  claim_C9_frontier_depth_invariant toyCtx [[bioRec]] 3 (by decide)

end Bluesky
